import Mathlib

set_option maxHeartbeats 1000000
set_option maxRecDepth 100000

set_option allowUnsafeReducibility true in
attribute [semireducible] Rat.add Rat.mul Rat.sub Rat.neg Rat.div Rat.inv Rat.ofScientific

/-!
Shallow embedding of the tabular AutoML subsystem:

* the candidate training loops of `TabularClassifier.train` and
  `TabularRegressor.train` (src/ml_engine/automl/tabular/classifier.py,
  regressor.py);
* the clustering loop of `TabularClusterer.train`
  (src/ml_engine/automl/tabular/clusterer.py);
* the preprocessor `TabularPreprocessor` and the encoder
  `OrdinalEncoderWithUnknown`
  (src/ml_engine/preprocessing/tabular_preprocessor.py);
* the problem-type detector `ProblemDetector`
  (src/backend/app/services/problem_detector.py);
* the pure artifact generation of `ModelPackager.package`
  (src/ml_engine/packaging/model_packager.py).

Machine floats of the source are modelled as rationals; external library
calls (scikit-learn estimators, metric computations, pandas datetime
parsing) enter the model as explicit oracle inputs carrying the values
those calls would return.
-/

instance : DecidableEq (Except String ℚ) := fun a b =>
  match a, b with
  | Except.error x, Except.error y =>
      if h : x = y then isTrue (by rw [h])
      else isFalse (fun hc => h (by injection hc))
  | Except.ok x, Except.ok y =>
      if h : x = y then isTrue (by rw [h])
      else isFalse (fun hc => h (by injection hc))
  | Except.error _, Except.ok _ => isFalse (fun hc => Except.noConfusion hc)
  | Except.ok _, Except.error _ => isFalse (fun hc => Except.noConfusion hc)

/-- Outcome of one candidate algorithm, as produced by
`_train_single_model`: either the message of the exception raised while
training or evaluating it, or its mean cross-validation score
(`cv_score_mean`).  The fitting itself is external (scikit-learn), so it
enters the model as this oracle value. -/
structure Candidate where
  name : String
  run : Except String ℚ
deriving DecidableEq

/-- One entry of `self.results`: the `status: completed` dictionary (with
its `cv_score_mean`) or the `status: failed` dictionary carrying the
stringified exception (classifier.py lines 135-139). -/
inductive ResultEntry where
  | completed (name : String) (score : ℚ)
  | failed (name : String) (error : String)
deriving DecidableEq

/-- Whether a result entry is a failed one. -/
def ResultEntry.isFailed : ResultEntry → Bool
  | .failed _ _ => true
  | .completed _ _ => false

/-- The mutable state of a train() run: `self.results`,
`self.best_model_name` and `self.best_score`.  `best_score` lives in
`WithBot ℚ` so that the regressor's initial value `float('-inf')`
(regressor.py line 101) is representable as `⊥`. -/
structure TrainState where
  results : List ResultEntry
  bestName : Option String
  bestScore : WithBot ℚ
deriving DecidableEq

/-- Body of the per-candidate loop of `train()` (classifier.py lines
115-139, regressor.py lines 127-151): skip names outside `MODELS`,
append a completed entry and update the best tracker on a strictly
greater `cv_score_mean`, or append a failed entry on an exception. -/
def trainStep (roster : List String) (s : TrainState) (c : Candidate) : TrainState :=
  if c.name ∈ roster then
    match c.run with
    | Except.ok q =>
        { results := s.results ++ [ResultEntry.completed c.name q]
          bestName := if s.bestScore < (q : WithBot ℚ) then some c.name else s.bestName
          bestScore := if s.bestScore < (q : WithBot ℚ) then (q : WithBot ℚ) else s.bestScore }
    | Except.error e =>
        { s with results := s.results ++ [ResultEntry.failed c.name e] }
  else s

/-- The whole candidate loop of `train()`, starting from empty results,
no best model and the given initial best score. -/
def trainFold (init : WithBot ℚ) (roster : List String) (cands : List Candidate) : TrainState :=
  cands.foldl (trainStep roster) { results := [], bestName := none, bestScore := init }

/-- The candidate loop of TabularClassifier.train: the best-score
tracker is initialised to `0` (classifier.py line 89). -/
def classifierTrain (roster : List String) (cands : List Candidate) : TrainState :=
  trainFold ((0 : ℚ) : WithBot ℚ) roster cands

/-- The candidate loop of TabularRegressor.train: the best-score
tracker is initialised to the float value -inf (regressor.py line 101),
modelled as `⊥`. -/
def regressorTrain (roster : List String) (cands : List Candidate) : TrainState :=
  trainFold ⊥ roster cands

/-- The result entry `train()` records for a candidate. -/
def resultOf (c : Candidate) : ResultEntry :=
  match c.run with
  | Except.ok q => ResultEntry.completed c.name q
  | Except.error e => ResultEntry.failed c.name e

/-- Whether the candidate's run raised an exception. -/
def runFailed (c : Candidate) : Bool :=
  match c.run with
  | Except.error _ => true
  | Except.ok _ => false

/-- The (name, mean CV score) pairs of the completed (non-failed)
roster candidates of a run, in processing order. -/
def completedScores (roster : List String) (cands : List Candidate) : List (String × ℚ) :=
  cands.filterMap (fun c =>
    if c.name ∈ roster then
      match c.run with
      | Except.ok q => some (c.name, q)
      | Except.error _ => none
    else none)

/-- One step of the best-tracking pair `(best_model_name, best_score)`:
update both exactly when the new score is strictly greater. -/
def selStep (a : Option String × WithBot ℚ) (p : String × ℚ) : Option String × WithBot ℚ :=
  if a.2 < (p.2 : WithBot ℚ) then (some p.1, (p.2 : WithBot ℚ)) else a

/-- The best-tracking pair after a list of completed candidates. -/
def selPair (a : Option String × WithBot ℚ) (l : List (String × ℚ)) : Option String × WithBot ℚ :=
  l.foldl selStep a

/-- Supremum of the scores of a list of completed candidates, over an
initial value. -/
def supScores (b : WithBot ℚ) (l : List (String × ℚ)) : WithBot ℚ :=
  l.foldl (fun acc p => acc ⊔ (p.2 : WithBot ℚ)) b

/-- The maximum mean CV score over a list of completed candidates. -/
def maxScore (l : List (String × ℚ)) : WithBot ℚ :=
  supScores ⊥ l

/-- The first completed candidate whose mean CV score equals the maximum
over all completed candidates — the claimed selection rule. -/
def firstMaxName (l : List (String × ℚ)) : Option String :=
  (l.find? (fun p => decide ((p.2 : WithBot ℚ) = maxScore l))).map Prod.fst

/-- The selection property claim C1 asserts of a finished train() state:
the returned best model is the first completed candidate achieving the
maximum mean CV score, and the returned best score dominates every
completed candidate's mean CV score. -/
abbrev bestSelectionClaim (t : TrainState) (l : List (String × ℚ)) : Prop :=
  t.bestName = firstMaxName l ∧ ∀ p ∈ l, (p.2 : WithBot ℚ) ≤ t.bestScore

/-- The final state claim C3 forbids: every result entry failed, no best
model selected — yet the run returned normally (the model's train
functions are total and the source raises no aggregate error). -/
abbrev silentEmptySuccess (t : TrainState) : Prop :=
  (∀ r ∈ t.results, r.isFailed = true) ∧ t.bestName = none

/-- A pandas dtype, as the source tests it (`X[col].dtype in [...]`,
`np.issubdtype(..., np.number)`, `dtype == 'object'`). -/
inductive Dtype where
  | int64
  | int32
  | float64
  | float32
  | object
  | category
  | boolean
deriving DecidableEq

/-- Whether the dtype is one of int64/int32/float64/float32
(tabular_preprocessor.py line 156). -/
def Dtype.isNumeric : Dtype → Bool
  | .int64 | .int32 | .float64 | .float32 => true
  | _ => false

/-- One cell of a pandas column: a numeric value, a string value, or a
missing value (NaN/None).  Machine floats are modelled as rationals. -/
inductive PCell where
  | num (q : ℚ)
  | str (s : String)
  | na
deriving DecidableEq

/-- A pandas column: its label, dtype and cells. -/
structure PCol where
  name : String
  dtype : Dtype
  values : List PCell
deriving DecidableEq

/-- A pandas DataFrame: its columns plus the row count `len(X)`. -/
structure Table where
  cols : List PCol
  nrows : Nat
deriving DecidableEq

/-- Whether a cell is missing. -/
def PCell.isNa : PCell → Bool
  | .na => true
  | _ => false

/-- The numeric value of a cell, when it has one. -/
def PCell.qVal? : PCell → Option ℚ
  | .num q => some q
  | _ => none

/-- Stand-in for the Python str() conversion used by
`X[col].astype(str)`: an injective rendering of cells to strings. -/
def PCell.render : PCell → String
  | .num q => toString q
  | .str s => s
  | .na => "nan"

/-- The pandas `Series.nunique()`: distinct non-missing values. -/
def nuniqueP (vals : List PCell) : Nat :=
  ((vals.filter (fun v => !v.isNa)).dedup).length

/-- Loop body of `_identify_columns` (tabular_preprocessor.py lines
155-163): a numeric-dtype column with at most `max_onehot_cardinality`
unique values and strictly fewer than 5% of the row count is appended
to the categorical list, every other numeric-dtype column to the
numeric list, every non-numeric column to the categorical list. -/
def identifyStep (maxCard : Nat) (nr : Nat) (acc : List String × List String) (c : PCol) :
    List String × List String :=
  if c.dtype.isNumeric = true then
    if nuniqueP c.values ≤ maxCard ∧ (nuniqueP c.values : ℚ) < (nr : ℚ) * (5 / 100) then
      (acc.1, acc.2 ++ [c.name])
    else (acc.1 ++ [c.name], acc.2)
  else (acc.1, acc.2 ++ [c.name])

/-- `_identify_columns`: returns the pair (numeric_columns_,
categorical_columns_). -/
def identifyColumns (maxCard : Nat) (X : Table) : List String × List String :=
  X.cols.foldl (identifyStep maxCard X.nrows) ([], [])

/-- The predicate claim C8 states for the categorical side: non-numeric
dtype, or numeric dtype with unique count at most the one-hot
cardinality cap and strictly below 5% of the row count. -/
def isCatCol (maxCard : Nat) (nr : Nat) (c : PCol) : Bool :=
  !c.dtype.isNumeric
    || (decide (nuniqueP c.values ≤ maxCard)
          && decide ((nuniqueP c.values : ℚ) < (nr : ℚ) * (5 / 100)))

/-- Insertion step of a lexicographic string sort (used to model the
sorted `classes_` of a fitted sklearn LabelEncoder). -/
def insertStr (x : String) : List String → List String
  | [] => [x]
  | y :: t => if x < y then x :: y :: t else y :: insertStr x t

/-- Insertion sort on strings. -/
def sortStr (l : List String) : List String :=
  l.foldr insertStr []

/-- The sorted distinct values of a list of strings: the semantics of
numpy.unique, hence of LabelEncoder.fit: `classes_` is the sorted
vocabulary. -/
def sortedUniqueStr (l : List String) : List String :=
  sortStr l.dedup

/-- The code `OrdinalEncoderWithUnknown.transform` assigns to one cell
(tabular_preprocessor.py lines 256-261): values outside the fitted
`classes_` are first replaced by `classes_[0]` and then label-encoded
to their index in `classes_`.  (On an empty vocabulary the source would
raise an IndexError; `fit` on a nonempty column always produces a
nonempty vocabulary, and the model totalises with the head default.) -/
def ordinalEncodeCell (classes : List String) (v : String) : Nat :=
  classes.indexOf (if v ∈ classes then v else classes.headD "")

/-- `OrdinalEncoderWithUnknown.fit` on a DataFrame (tabular_preprocessor.py
lines 236-240): one LabelEncoder per column, fitted on the stringified
values, i.e. one sorted vocabulary per column name. -/
def ordinalFit (Xt : List (String × List String)) : List (String × List String) :=
  Xt.map (fun c => (c.1, sortedUniqueStr c.2))

/-- `self.encoders_.get(col)`: the fitted vocabulary stored for a
column name, if any. -/
def lookupEnc (E : List (String × List String)) (n : String) : Option (List String) :=
  (E.find? (fun p => p.1 == n)).map Prod.snd

/-- An output cell of `OrdinalEncoderWithUnknown.transform`: either an
encoded code or a raw passthrough value (columns without a stored
encoder are passed through, lines 262-263). -/
inductive OrdCell where
  | enc (code : Nat)
  | raw (v : String)
deriving DecidableEq

/-- `OrdinalEncoderWithUnknown.transform` over a whole DataFrame
(tabular_preprocessor.py lines 249-263, column-major view of the
stacked result).  It is a total function: no input raises. -/
def ordinalTransform (E : List (String × List String)) (X : List (String × List String)) :
    List (List OrdCell) :=
  X.map (fun c =>
    match lookupEnc E c.1 with
    | some classes => c.2.map (fun v => OrdCell.enc (ordinalEncodeCell classes v))
    | none => c.2.map OrdCell.raw)

/-- One encoded cell of a fitted sklearn OneHotEncoder with
handle_unknown='ignore' (configured at tabular_preprocessor.py line 87):
the indicator vector of the cell against the fitted category list; a
value outside the fitted vocabulary yields the all-zero vector, never
an error. -/
def oneHotCell (cats : List PCell) (v : PCell) : List ℚ :=
  cats.map (fun c => if c = v then 1 else 0)

/-- The cell order used by the sort on cells (numeric values ordered
numerically, strings lexicographically; a real pandas column is
homogeneous, the cross-kind order is an arbitrary fixed choice). -/
def PCell.pLt : PCell → PCell → Bool
  | .na, .na => false
  | .na, _ => true
  | _, .na => false
  | .num a, .num b => decide (a < b)
  | .num _, .str _ => true
  | .str _, .num _ => false
  | .str a, .str b => decide (a < b)

/-- Insertion step of the sort on cells. -/
def insertP (x : PCell) : List PCell → List PCell
  | [] => [x]
  | y :: t => if x.pLt y then x :: y :: t else y :: insertP x t

/-- Insertion sort on cells. -/
def sortP (l : List PCell) : List PCell :=
  l.foldr insertP []

/-- Sorted distinct cell values (numpy.unique semantics: the fitted
`categories_` of a OneHotEncoder). -/
def sortedUniqueP (l : List PCell) : List PCell :=
  sortP l.dedup

/-- Number of occurrences of a value. -/
def countP (l : List PCell) (v : PCell) : Nat :=
  (l.filter (fun w => w == v)).length

/-- SimpleImputer(strategy='most_frequent'): the smallest value among
those of maximal frequency (scipy mode semantics). -/
def mostFrequentP (l : List PCell) : PCell :=
  let cands := sortedUniqueP l
  let maxC := (cands.map (countP l)).foldl max 0
  (cands.find? (fun v => countP l v == maxC)).getD (PCell.str ("missing"))

/-- Sorted rationals (for the median). -/
def insertQ (x : ℚ) : List ℚ → List ℚ
  | [] => [x]
  | y :: t => if x ≤ y then x :: y :: t else y :: insertQ x t

/-- Insertion sort on rationals. -/
def sortQ (l : List ℚ) : List ℚ :=
  l.foldr insertQ []

/-- The median as SimpleImputer(strategy='median') computes it: middle
element of the sorted values, or the average of the two middles. -/
def medianQ (l : List ℚ) : ℚ :=
  let s := sortQ l
  let n := s.length
  if n = 0 then 0
  else if n % 2 = 1 then s.getD (n / 2) 0
  else (s.getD (n / 2 - 1) 0 + s.getD (n / 2) 0) / 2

/-- Arithmetic mean (0 on an empty list, via rational division by 0). -/
def meanQ (l : List ℚ) : ℚ :=
  l.sum / (l.length : ℚ)

/-- Population variance, as StandardScaler fits it. -/
def popVarQ (l : List ℚ) : ℚ :=
  ((l.map (fun x => (x - meanQ l) ^ 2)).sum) / (l.length : ℚ)

/-- Exact-on-perfect-squares stand-in for the float square root used by
StandardScaler (the source computes with floats; the scaler's exact
scale value is irrelevant to every property proved here). -/
def sqrtQ (q : ℚ) : ℚ :=
  (Int.sqrt q.num : ℚ) / (Nat.sqrt q.den : ℚ)

/-- The per-column state of the fitted numeric pipeline of
`TabularPreprocessor.fit` (lines 72-80): the imputation value (median),
and the scaler's mean and scale.  StandardScaler replaces a zero scale
by 1. -/
structure FittedNumeric where
  name : String
  imputeVal : ℚ
  mean : ℚ
  scale : ℚ
deriving DecidableEq

/-- Fit the numeric pipeline on one column: impute the median, then fit
the scaler statistics on the imputed values. -/
def fitNumericCol (c : PCol) : FittedNumeric :=
  let nonNa := c.values.filterMap PCell.qVal?
  let m := medianQ nonNa
  let imputed := c.values.map (fun v => (PCell.qVal? v).getD m)
  let vr := popVarQ imputed
  ⟨c.name, m, meanQ imputed, if vr = 0 then 1 else sqrtQ vr⟩

/-- Replay the fitted numeric pipeline on one column's cells. -/
def transformNumCol (scale : Bool) (f : FittedNumeric) (vals : List PCell) : List PCell :=
  vals.map (fun v =>
    let x := (PCell.qVal? v).getD f.imputeVal
    PCell.num (if scale then (x - f.mean) / f.scale else x))

/-- The encoder fitted for a categorical column: one-hot categories or
an ordinal vocabulary (tabular_preprocessor.py lines 84-93). -/
inductive FittedEncoder where
  | onehot (cats : List PCell)
  | ordinal (classes : List String)
deriving DecidableEq

/-- `encode_categorical` constructor argument. -/
inductive EncodeKind where
  | onehot
  | label
deriving DecidableEq

/-- The per-column state of the fitted categorical pipeline: the
imputation value (most frequent) and the fitted encoder. -/
structure FittedCategorical where
  name : String
  imputeVal : PCell
  encoder : FittedEncoder
deriving DecidableEq

/-- Fit the categorical pipeline on one column: impute most-frequent,
then fit the chosen encoder on the imputed values. -/
def fitCatCol (enc : EncodeKind) (c : PCol) : FittedCategorical :=
  let nonNa := c.values.filter (fun v => !v.isNa)
  let mf := mostFrequentP nonNa
  let imputed := c.values.map (fun v => if v.isNa then mf else v)
  ⟨c.name, mf,
    match enc with
    | EncodeKind.onehot => FittedEncoder.onehot (sortedUniqueP imputed)
    | EncodeKind.label => FittedEncoder.ordinal (sortedUniqueStr (imputed.map PCell.render))⟩

/-- Replay the fitted categorical pipeline on one column's cells,
producing one output column per one-hot category, or a single column of
ordinal codes. -/
def transformCatCol (f : FittedCategorical) (vals : List PCell) : List (List PCell) :=
  let imputed := vals.map (fun v => if v.isNa then f.imputeVal else v)
  match f.encoder with
  | FittedEncoder.onehot cats =>
      cats.map (fun cat => imputed.map (fun v => PCell.num (if v = cat then 1 else 0)))
  | FittedEncoder.ordinal classes =>
      [imputed.map (fun v => PCell.num ((ordinalEncodeCell classes v.render : Nat) : ℚ))]

/-- One fitted transformer of the ColumnTransformer built in `fit`
(lines 69-101): the numeric pipeline, the categorical pipeline, or the
passthrough remainder. -/
inductive TransSpec where
  | numeric (fits : List FittedNumeric)
  | categorical (fits : List FittedCategorical)
  | remainder (names : List String)
deriving DecidableEq

/-- The fitted preprocessor state: the scaling flag and the fitted
transformers in construction order. -/
structure PreState where
  scaleNumeric : Bool
  specs : List TransSpec
deriving DecidableEq

/-- Constructor configuration of TabularPreprocessor (defaults:
scale_numeric=True, encode_categorical='onehot',
max_onehot_cardinality=10; the imputation strategies are fixed to their
defaults median / most_frequent). -/
structure PreConfig where
  scaleNumeric : Bool
  encode : EncodeKind
  maxCard : Nat
deriving DecidableEq

/-- Column selection by NAME, as a fitted ColumnTransformer performs it
on DataFrame input: the first column carrying the label (pandas column
labels are unique in this pipeline). -/
def lookupCol (X : Table) (n : String) : PCol :=
  (X.cols.filter (fun c => c.name == n)).headD ⟨n, Dtype.object, []⟩

/-- Replay one fitted transformer on an input table, selecting its
columns by name. -/
def applySpec (scale : Bool) (X : Table) : TransSpec → List (List PCell)
  | TransSpec.numeric fits =>
      fits.map (fun f => transformNumCol scale f (lookupCol X f.name).values)
  | TransSpec.categorical fits =>
      (fits.map (fun f => transformCatCol f (lookupCol X f.name).values)).flatten
  | TransSpec.remainder names =>
      names.map (fun n => (lookupCol X n).values)

/-- `TabularPreprocessor.fit` (lines 54-109): identify column kinds,
fit the numeric pipeline, the categorical pipeline and the passthrough
remainder, appending the transformers in that fixed order (numeric and
categorical only when their column list is nonempty; the remainder
holds the unassigned columns in input order). -/
def fitPre (cfg : PreConfig) (X : Table) : PreState :=
  let ids := identifyColumns cfg.maxCard X
  let numFits := ids.1.map (fun n => fitNumericCol (lookupCol X n))
  let catFits := ids.2.map (fun n => fitCatCol cfg.encode (lookupCol X n))
  let rem := (X.cols.filter (fun c => !(decide (c.name ∈ ids.1) || decide (c.name ∈ ids.2)))).map PCol.name
  { scaleNumeric := cfg.scaleNumeric
    specs := (if ids.1 = [] then [] else [TransSpec.numeric numFits])
      ++ (if ids.2 = [] then [] else [TransSpec.categorical catFits])
      ++ [TransSpec.remainder rem] }

/-- `TabularPreprocessor.transform` (lines 111-124): replay every
fitted transformer and concatenate the output blocks (column-major view
of the produced matrix). -/
def transformPre (st : PreState) (X : Table) : List (List PCell) :=
  (st.specs.map (applySpec st.scaleNumeric X)).flatten

/-- The numeric output block of a preprocessor fitted on `X` and
replayed on `Y`. -/
def numericBlockOut (cfg : PreConfig) (X Y : Table) : List (List PCell) :=
  ((identifyColumns cfg.maxCard X).1.map (fun n => fitNumericCol (lookupCol X n))).map
    (fun f => transformNumCol cfg.scaleNumeric f (lookupCol Y f.name).values)

/-- The categorical output block of a preprocessor fitted on `X` and
replayed on `Y`. -/
def categoricalBlockOut (cfg : PreConfig) (X Y : Table) : List (List PCell) :=
  (((identifyColumns cfg.maxCard X).2.map (fun n => fitCatCol cfg.encode (lookupCol X n))).map
    (fun f => transformCatCol f (lookupCol Y f.name).values)).flatten

/-- The passthrough output block of a preprocessor fitted on `X` and
replayed on `Y`. -/
def passthroughOut (cfg : PreConfig) (X Y : Table) : List (List PCell) :=
  ((X.cols.filter (fun c =>
      !(decide (c.name ∈ (identifyColumns cfg.maxCard X).1)
          || decide (c.name ∈ (identifyColumns cfg.maxCard X).2)))).map PCol.name).map
    (fun n => (lookupCol Y n).values)

/-- Concrete example table: one numeric column x and one categorical
column c, two rows. -/
def exTableX : Table :=
  ⟨[⟨"x", Dtype.float64, [PCell.num 1, PCell.num 3]⟩,
    ⟨"c", Dtype.object, [PCell.str ("A"), PCell.str ("A")]⟩], 2⟩

/-- The same table with its columns swapped. -/
def exTableY : Table :=
  ⟨[⟨"c", Dtype.object, [PCell.str ("A"), PCell.str ("A")]⟩,
    ⟨"x", Dtype.float64, [PCell.num 1, PCell.num 3]⟩], 2⟩

/-- Number of DBSCAN clusters excluding noise, as `_train_dbscan`
computes it (clusterer.py line 109): `len(set(labels))` minus one when
the noise label -1 occurs, i.e. the number of distinct non-noise
labels. -/
def nClustersOf (labels : List Int) : Nat :=
  (labels.dedup.filter (fun l => decide (l ≠ -1))).length

/-- The silhouette entry of the `_train_dbscan` result (clusterer.py
lines 113-116): the externally computed silhouette when at least two
non-noise clusters remain, else the sentinel -1.  `computedSil` is the
oracle for the external `silhouette_score` call.  The function is
total: the sentinel branch raises nothing. -/
def dbscanSil (labels : List Int) (computedSil : ℚ) : ℚ :=
  if 2 ≤ nClustersOf labels then computedSil else -1

/-- The completed candidates of the k-means sweep (clusterer.py lines
39-54), as (name, silhouette) pairs named `kmeans_k`; failed sweeps are
skipped, mirroring the except branch. -/
def kmeansCompleted (kres : List (Nat × Except String ℚ)) : List (String × ℚ) :=
  kres.filterMap (fun p =>
    match p.2 with
    | Except.ok s => some (("kmeans_") ++ toString p.1, s)
    | Except.error _ => none)

/-- The best-candidate selection of `TabularClusterer.train` (lines
36-78): fold the k-means sweep through the strict-improvement tracker
starting from best_score = -inf, then consider DBSCAN, selected exactly
when its silhouette entry strictly exceeds the tracker. -/
def clustererTrain (kres : List (Nat × Except String ℚ)) (includeDb : Bool)
    (labels : List Int) (computedSil : ℚ) : Option String × WithBot ℚ :=
  let p := selPair (none, ⊥) (kmeansCompleted kres)
  if includeDb then
    let sil := dbscanSil labels computedSil
    if p.2 < ((sil : ℚ) : WithBot ℚ) then (some ("dbscan"), ((sil : ℚ) : WithBot ℚ)) else p
  else p

/-- A column as the problem detector sees it: label, dtype, cells, and
the oracle for the external `pd.to_datetime(col.head(100))` parse
attempt of `_is_timeseries`. -/
structure DetCol where
  name : String
  dtype : Dtype
  values : List PCell
  parsesDatetime : Bool
deriving DecidableEq

/-- The DataFrame handed to ProblemDetector. -/
structure DetFrame where
  cols : List DetCol
deriving DecidableEq

/-- ASCII lowercasing of a label (`col.lower()`). -/
def lowerStr (s : String) : String :=
  ⟨s.data.map Char.toLower⟩

/-- The Python substring test `kw in col_lower`. -/
def strContains (s pat : String) : Bool :=
  (List.range (s.data.length + 1)).any (fun i => pat.data.isPrefixOf (s.data.drop i))

/-- The date-like keywords of `_is_timeseries` (problem_detector.py
line 73). -/
def tsKeywords : List String :=
  ["date", "time", "datetime", "timestamp"]

/-- `_is_timeseries` (problem_detector.py lines 69-79): some column
whose lowercased name contains a date keyword and whose head sample
parses as datetime. -/
def isTimeseries (df : DetFrame) : Bool :=
  df.cols.any (fun c =>
    (tsKeywords.any (fun kw => strContains (lowerStr c.name) kw)) && c.parsesDatetime)

/-- `self.df[target_column]` (the detector is constructed with an
existing target column; the default is never hit on real input). -/
def lookupDet (df : DetFrame) (n : String) : DetCol :=
  (df.cols.filter (fun c => c.name == n)).headD ⟨n, Dtype.object, [], false⟩

/-- `_determine_problem_type` (problem_detector.py lines 40-67): the
timeseries check first, then the unique-count / unique-ratio
classification rule, then numeric-dtype regression, then the text
fallback, then the low-confidence regression default.  (On an empty
target the source would divide by zero; the model's rational division
returns 0 there.) -/
def determineProblemType (df : DetFrame) (targetName : String) : String × ℚ :=
  if isTimeseries df then (("timeseries"), 0.9)
  else
    let target := lookupDet df targetName
    let u := nuniqueP target.values
    let r := (u : ℚ) / (target.values.length : ℚ)
    if u ≤ 20 ∧ r < 0.05 then
      if u = 2 then (("binary_classification"), 0.95)
      else (("multiclass_classification"), 0.9)
    else if target.dtype.isNumeric then (("regression"), 0.9)
    else if target.dtype = Dtype.object ∧ u ≤ 50 then (("multiclass_classification"), 0.7)
    else (("regression"), 0.5)

/-- `ProblemDetector.detect` restricted to the problem-type/confidence
pair it returns: clustering without a target, else
`_determine_problem_type`. -/
def detect (df : DetFrame) (targetName? : Option String) : String × ℚ :=
  match targetName? with
  | none => (("clustering"), 0.8)
  | some n => determineProblemType df n

/-- The statement claim C5 makes of one detector run: whenever the
target has at most 20 unique values and a unique-to-row ratio strictly
below 0.05, detect() returns binary_classification at confidence 0.95
on exactly 2 uniques and multiclass_classification at 0.9 otherwise. -/
abbrev C5Statement (df : DetFrame) (tname : String) : Prop :=
  nuniqueP (lookupDet df tname).values ≤ 20 →
  ((nuniqueP (lookupDet df tname).values : ℚ)
      / ((lookupDet df tname).values.length : ℚ)) < 0.05 →
  detect df (some tname)
    = (if nuniqueP (lookupDet df tname).values = 2
        then (("binary_classification"), (0.95 : ℚ))
        else (("multiclass_classification"), 0.9))

/-- The C5 counterexample frame: a parseable date-named column next to
a float target with 2 unique values over 50 rows (ratio 0.04). -/
def dfC5 : DetFrame :=
  ⟨[⟨"date", Dtype.object, [], true⟩,
    ⟨"y", Dtype.float64, List.replicate 49 (PCell.num 1) ++ [PCell.num 2], false⟩]⟩

/-- The C5 witness frame: a float target with 3 unique values over 100
rows and no date-like column — the spec's own boundary scenario. -/
def dfC5w : DetFrame :=
  ⟨[⟨"y", Dtype.float64, List.replicate 98 (PCell.num 1) ++ [PCell.num 2, PCell.num 3], false⟩]⟩

/-- The fields of the `feature_schema['features']` entries that
`_create_ui_field` reads (dicts modelled as structures; keys the
producer `create_feature_schema` may omit are Options). -/
structure FeatureInfo where
  dtype : String
  semanticType : String
  categories : List String
  min? : Option ℚ
  max? : Option ℚ
  mean? : Option ℚ
  median? : Option ℚ
deriving DecidableEq

/-- The feature_schema input of `package()`. -/
structure FeatureSchema where
  targetColumn : String
  features : List (String × FeatureInfo)
deriving DecidableEq

/-- The metadata keys `package()` and its generators read. -/
structure MetadataIn where
  name? : Option String
  version? : Option String
  targetColumn? : Option String
  problemType? : Option String
  bestModel? : Option String
  bestScore? : Option ℚ
deriving DecidableEq

/-- One descriptor of ui_schema['fields'] (keys a branch does not set
are modelled as none / []). -/
structure UiField where
  name : String
  label : String
  required : Bool
  ftype : String
  inputType : String
  options : List String
  min? : Option ℚ
  max? : Option ℚ
  default? : Option ℚ
deriving DecidableEq

/-- Python str.title(): uppercase the first character of every
alphabetic run, lowercase the rest. -/
def titleCase (s : String) : String :=
  ⟨(s.data.foldl
      (fun (acc : List Char × Bool) ch =>
        if ch.isAlpha then
          (acc.1 ++ [if acc.2 then ch.toLower else ch.toUpper], true)
        else (acc.1 ++ [ch], false))
      ([], false)).1⟩

/-- The Python `or` of `info.get('mean') or info.get('median')`
(model_packager.py line 298): a missing or zero (falsy) mean falls back
to the median. -/
def pyOr (a b : Option ℚ) : Option ℚ :=
  match a with
  | some q => if q = 0 then b else some q
  | none => b

/-- The dtype list of the numeric branch of `_create_ui_field`. -/
def numDtypeNames : List String :=
  ["int64", "float64", "int32", "float32"]

/-- `_create_ui_field` (model_packager.py lines 276-308). -/
def createUiField (nm : String) (info : FeatureInfo) : UiField :=
  let label := titleCase (nm.replace ("_") (" "))
  if info.semanticType = ("categorical") ∨ info.dtype = ("object") ∨ info.dtype = ("category") then
    ⟨nm, label, true, ("categorical"), ("dropdown"), info.categories, none, none, none⟩
  else if info.semanticType = ("numeric") ∨ info.dtype ∈ numDtypeNames then
    ⟨nm, label, true, ("number"), ("number"), [], info.min?, info.max?,
      pyOr info.mean? info.median?⟩
  else if info.semanticType = ("boolean") then
    ⟨nm, label, true, ("boolean"), ("checkbox"), [], none, none, none⟩
  else
    ⟨nm, label, true, ("text"), ("text"), [], none, none, none⟩

/-- The ui_schema.json document. -/
structure UiSchema where
  modelName : String
  version : String
  targetColumn? : Option String
  problemType? : Option String
  fields : List UiField
deriving DecidableEq

/-- `_generate_ui_schema` (model_packager.py lines 255-274): header
fields from metadata, one field descriptor per feature in schema
order. -/
def generateUiSchema (fs : FeatureSchema) (md : MetadataIn) : UiSchema :=
  ⟨md.name?.getD ("Unnamed Model"), md.version?.getD ("1.0.0"),
    md.targetColumn?, md.problemType?,
    fs.features.map (fun p => createUiField p.1 p.2)⟩

/-- The metadata.json document: the input metadata plus the
packaged_at timestamp and package_version stamped at lines 73-74. -/
structure MetadataOut where
  base : MetadataIn
  packagedAt : String
  packageVersion : String
deriving DecidableEq

/-- The model_info.json document (`_generate_model_info`, lines
102-115); its training_date comes from the packaged_at timestamp. -/
structure ModelInfo where
  modelName : String
  description : String
  problemType? : Option String
  targetColumn? : Option String
  bestAlgorithm? : Option String
  bestScore? : Option ℚ
  trainingDate : String
  features : List String
  numFeatures : Nat
deriving DecidableEq

/-- `_generate_model_info`. -/
def generateModelInfo (md : MetadataIn) (fs : FeatureSchema) (packagedAt : String) : ModelInfo :=
  ⟨md.name?.getD ("Unnamed Model"),
    ("Trained ") ++ md.problemType?.getD ("ML")
      ++ (" model for predicting ") ++ md.targetColumn?.getD ("target"),
    md.problemType?, md.targetColumn?, md.bestModel?, md.bestScore?, packagedAt,
    fs.features.map Prod.fst, fs.features.length⟩

/-- `_generate_requirements` (model_packager.py lines 310-326). -/
def generateRequirements (fmt : String) : List String :=
  ["pandas>=2.0.0", "numpy>=1.24.0", "scikit-learn>=1.3.0", "joblib>=1.3.0",
    "streamlit>=1.28.0"]
    ++ (if fmt = ("h5") then ["tensorflow>=2.15.0"] else [])

/-- The data-bearing artifacts `package()` writes. -/
structure BundleArtifacts where
  featureSchemaJson : FeatureSchema
  uiSchema : UiSchema
  metadataOut : MetadataOut
  modelInfo : ModelInfo
  requirements : List String
deriving DecidableEq

/-- The pure artifact generation of `ModelPackager.package` (lines
23-100), with `now` the oracle for datetime.now(): feature_schema.json
is the input schema verbatim; ui_schema.json is generated from the
un-mutated metadata; metadata.json is the input metadata plus the
timestamp and package version; model_info.json reads the freshly
stamped packaged_at; requirements.txt depends only on the format.
Serialized model/preprocessor blobs and generated scripts are
byte-for-byte functions of their inputs and are not modelled. -/
def packageArtifacts (fs : FeatureSchema) (md : MetadataIn) (fmt : String)
    (now : String) : BundleArtifacts :=
  let ui := generateUiSchema fs md
  let mdOut : MetadataOut := ⟨md, now, ("1.0.0")⟩
  let info := generateModelInfo md fs now
  ⟨fs, ui, mdOut, info, generateRequirements fmt⟩

/- ------------------------------------------------------------------ -/
/- Theorems -/
/- ------------------------------------------------------------------ -/

theorem supScores_cons (b : WithBot ℚ) (p : String × ℚ) (t : List (String × ℚ)) :
    supScores b (p :: t) = supScores (b ⊔ (p.2 : WithBot ℚ)) t := rfl

theorem le_supScores (b : WithBot ℚ) (l : List (String × ℚ)) : b ≤ supScores b l := by
  induction l generalizing b with
  | nil => exact le_rfl
  | cons p t ih => exact le_trans le_sup_left (ih (b ⊔ (p.2 : WithBot ℚ)))

theorem mem_le_supScores (b : WithBot ℚ) {l : List (String × ℚ)} {p : String × ℚ}
    (hp : p ∈ l) : (p.2 : WithBot ℚ) ≤ supScores b l := by
  induction l generalizing b with
  | nil => cases hp
  | cons q t ih =>
    rw [supScores_cons]
    rcases List.mem_cons.mp hp with h | h
    · subst h
      exact le_trans le_sup_right (le_supScores (b ⊔ (p.2 : WithBot ℚ)) t)
    · exact ih (b ⊔ (q.2 : WithBot ℚ)) h

theorem supScores_of_le (b : WithBot ℚ) {l : List (String × ℚ)}
    (h : ∀ p ∈ l, (p.2 : WithBot ℚ) ≤ b) : supScores b l = b := by
  induction l with
  | nil => rfl
  | cons q t ih =>
    rw [supScores_cons, sup_eq_left.mpr (h q (List.mem_cons_self q t))]
    exact ih (fun p hp => h p (List.mem_cons_of_mem q hp))

theorem supScores_eq_sup (b : WithBot ℚ) (l : List (String × ℚ)) :
    supScores b l = b ⊔ maxScore l := by
  induction l generalizing b with
  | nil =>
    show b = b ⊔ ⊥
    simp
  | cons p t ih =>
    have h2 : maxScore (p :: t) = (p.2 : WithBot ℚ) ⊔ maxScore t := by
      show supScores ⊥ (p :: t) = _
      rw [supScores_cons, ih, bot_sup_eq]
    rw [supScores_cons, ih, h2, sup_assoc]

theorem selPair_snd (a : Option String × WithBot ℚ) (l : List (String × ℚ)) :
    (selPair a l).2 = supScores a.2 l := by
  induction l generalizing a with
  | nil => rfl
  | cons p t ih =>
    show (selPair (selStep a p) t).2 = _
    rw [ih, supScores_cons, selStep]
    rcases lt_or_ge a.2 (p.2 : WithBot ℚ) with h | h
    · rw [if_pos h, sup_eq_right.mpr h.le]
    · rw [if_neg (not_lt.mpr h), sup_eq_left.mpr h]

theorem selPair_no_update (a : Option String × WithBot ℚ) {l : List (String × ℚ)}
    (h : ∀ p ∈ l, ¬ a.2 < (p.2 : WithBot ℚ)) : selPair a l = a := by
  induction l with
  | nil => rfl
  | cons p t ih =>
    show selPair (selStep a p) t = a
    rw [selStep, if_neg (h p (List.mem_cons_self p t))]
    exact ih (fun q hq => h q (List.mem_cons_of_mem p hq))

theorem find?_congr_mem {α : Type} {l : List α} {p q : α → Bool}
    (h : ∀ a ∈ l, p a = q a) : l.find? p = l.find? q := by
  induction l with
  | nil => rfl
  | cons x t ih =>
    have hx := h x (List.mem_cons_self x t)
    cases hqx : q x with
    | false =>
      rw [List.find?_cons_of_neg _ (by simp [hx, hqx]),
        List.find?_cons_of_neg _ (by simp [hqx])]
      exact ih (fun a ha => h a (List.mem_cons_of_mem x ha))
    | true =>
      rw [List.find?_cons_of_pos _ (by simp [hx, hqx]),
        List.find?_cons_of_pos _ (by simp [hqx])]

theorem selPair_fst_spec {l : List (String × ℚ)} (a : Option String × WithBot ℚ)
    (hex : ∃ p ∈ l, a.2 < (p.2 : WithBot ℚ)) :
    (selPair a l).1
      = (l.find? (fun p => decide (supScores a.2 l ≤ (p.2 : WithBot ℚ)))).map Prod.fst := by
  induction l generalizing a with
  | nil => exact absurd hex (by simp)
  | cons p t ih =>
    by_cases h : a.2 < (p.2 : WithBot ℚ)
    · have hstep : selPair a (p :: t) = selPair (some p.1, (p.2 : WithBot ℚ)) t := by
        show selPair (selStep a p) t = _
        rw [selStep, if_pos h]
      have hsup : supScores a.2 (p :: t) = supScores (p.2 : WithBot ℚ) t := by
        rw [supScores_cons, sup_eq_right.mpr h.le]
      by_cases h2 : ∃ q ∈ t, (p.2 : WithBot ℚ) < (q.2 : WithBot ℚ)
      · have hM : ¬ (supScores a.2 (p :: t) ≤ (p.2 : WithBot ℚ)) := by
          rcases h2 with ⟨q, hq, hlt⟩
          intro hle
          have hq2 : (q.2 : WithBot ℚ) ≤ supScores a.2 (p :: t) := by
            rw [hsup]; exact mem_le_supScores _ hq
          exact absurd (lt_of_le_of_lt hle (lt_of_lt_of_le hlt hq2)) (lt_irrefl _)
        rw [hstep, ih (some p.1, (p.2 : WithBot ℚ)) h2,
          List.find?_cons_of_neg _ (by simpa using hM), hsup]
      · push_neg at h2
        have h2' : ∀ q ∈ t, (q.2 : WithBot ℚ) ≤ (p.2 : WithBot ℚ) := h2
        have hM : supScores a.2 (p :: t) = (p.2 : WithBot ℚ) := by
          rw [hsup]; exact supScores_of_le _ h2'
        have hno : selPair (some p.1, (p.2 : WithBot ℚ)) t = (some p.1, (p.2 : WithBot ℚ)) :=
          selPair_no_update _ (fun q hq => not_lt.mpr (h2' q hq))
        rw [hstep, hno, List.find?_cons_of_pos _ (by simp [hM])]
        rfl
    · have hstep : selPair a (p :: t) = selPair a t := by
        show selPair (selStep a p) t = _
        rw [selStep, if_neg h]
      rcases hex with ⟨q, hq, hlt⟩
      have hqt : q ∈ t := by
        rcases List.mem_cons.mp hq with rfl | ht
        · exact absurd hlt h
        · exact ht
      have hsup : supScores a.2 (p :: t) = supScores a.2 t := by
        rw [supScores_cons, sup_eq_left.mpr (not_lt.mp h)]
      have hM : ¬ (supScores a.2 (p :: t) ≤ (p.2 : WithBot ℚ)) := by
        intro hle
        have h1 : supScores a.2 (p :: t) ≤ a.2 := le_trans hle (not_lt.mp h)
        have h2 : (q.2 : WithBot ℚ) ≤ supScores a.2 t := mem_le_supScores _ hqt
        exact absurd (lt_of_lt_of_le hlt (le_trans h2 (hsup ▸ h1))) (lt_irrefl _)
      rw [hstep, ih a ⟨q, hqt, hlt⟩, List.find?_cons_of_neg _ (by simpa using hM), hsup]

theorem selPair_fst_mem (l : List (String × ℚ)) (a : Option String × WithBot ℚ) (n : String)
    (h : (selPair a l).1 = some n) :
    a.1 = some n ∨ ∃ s : ℚ, (n, s) ∈ l ∧ a.2 < (s : WithBot ℚ) := by
  induction l generalizing a with
  | nil => exact Or.inl h
  | cons p t ih =>
    have hstep : selPair a (p :: t) = selPair (selStep a p) t := rfl
    rw [hstep] at h
    rcases ih (selStep a p) h with h1 | h1
    · rw [selStep] at h1
      by_cases hc : a.2 < (p.2 : WithBot ℚ)
      · rw [if_pos hc] at h1
        refine Or.inr ⟨p.2, ?_, ?_⟩
        · have : p.1 = n := by simpa using h1
          rw [← this]; exact List.mem_cons_self p t
        · exact hc
      · rw [if_neg hc] at h1
        exact Or.inl h1
    · rcases h1 with ⟨s, hs, hlt⟩
      refine Or.inr ⟨s, List.mem_cons_of_mem p hs, lt_of_le_of_lt ?_ hlt⟩
      rw [selStep]
      by_cases hc : a.2 < (p.2 : WithBot ℚ)
      · rw [if_pos hc]; exact hc.le
      · rw [if_neg hc]

theorem trainFold_go (roster : List String) (cands : List Candidate) (s : TrainState) :
    ((cands.foldl (trainStep roster) s).bestName,
      (cands.foldl (trainStep roster) s).bestScore)
        = selPair (s.bestName, s.bestScore) (completedScores roster cands)
    ∧ (cands.foldl (trainStep roster) s).results
        = s.results ++ (cands.filter (fun c => decide (c.name ∈ roster))).map resultOf := by
  induction cands generalizing s with
  | nil => simp [completedScores, selPair]
  | cons c t ih =>
    have hfold : (c :: t).foldl (trainStep roster) s = t.foldl (trainStep roster) (trainStep roster s c) := rfl
    by_cases hmem : c.name ∈ roster
    · rcases hrun : c.run with e | q
      · -- failed candidate
        have hstep : trainStep roster s c
            = { s with results := s.results ++ [ResultEntry.failed c.name e] } := by
          simp only [trainStep, if_pos hmem, hrun]
        have hcs : completedScores roster (c :: t) = completedScores roster t := by
          simp [completedScores, hmem, hrun]
        have hfil : (c :: t).filter (fun c => decide (c.name ∈ roster))
            = c :: t.filter (fun c => decide (c.name ∈ roster)) := by
          simp [List.filter_cons, hmem]
        have hres : resultOf c = ResultEntry.failed c.name e := by
          simp only [resultOf, hrun]
        rcases ih (trainStep roster s c) with ⟨h1, h2⟩
        constructor
        · rw [hfold, h1, hstep, hcs]
        · rw [hfold, h2, hstep, hfil, List.map_cons, hres]
          simp
      · -- completed candidate
        have hstep : trainStep roster s c
            = { results := s.results ++ [ResultEntry.completed c.name q]
                bestName := if s.bestScore < (q : WithBot ℚ) then some c.name else s.bestName
                bestScore := if s.bestScore < (q : WithBot ℚ) then (q : WithBot ℚ) else s.bestScore } := by
          simp only [trainStep, if_pos hmem, hrun]
        have hcs : completedScores roster (c :: t)
            = (c.name, q) :: completedScores roster t := by
          simp [completedScores, hmem, hrun]
        have hfil : (c :: t).filter (fun c => decide (c.name ∈ roster))
            = c :: t.filter (fun c => decide (c.name ∈ roster)) := by
          simp [List.filter_cons, hmem]
        have hres : resultOf c = ResultEntry.completed c.name q := by
          simp only [resultOf, hrun]
        rcases ih (trainStep roster s c) with ⟨h1, h2⟩
        constructor
        · rw [hfold, h1, hstep, hcs]
          show _ = selPair (selStep (s.bestName, s.bestScore) (c.name, q)) _
          rw [selStep]
          by_cases hc : s.bestScore < (q : WithBot ℚ)
          · simp only [hc, if_true, if_pos hc]
          · simp only [hc, if_false, if_neg hc]
        · rw [hfold, h2, hstep, hfil, List.map_cons, hres]
          simp
    · have hstep : trainStep roster s c = s := by
        simp only [trainStep, if_neg hmem]
      have hcs : completedScores roster (c :: t) = completedScores roster t := by
        simp [completedScores, hmem]
      have hfil : (c :: t).filter (fun c => decide (c.name ∈ roster))
          = t.filter (fun c => decide (c.name ∈ roster)) := by
        simp [List.filter_cons, hmem]
      rcases ih (trainStep roster s c) with ⟨h1, h2⟩
      rw [hstep] at h1 h2
      exact ⟨by rw [hfold, hstep, h1, hcs], by rw [hfold, hstep, h2, hfil]⟩

theorem trainFold_pair (init : WithBot ℚ) (roster : List String) (cands : List Candidate) :
    ((trainFold init roster cands).bestName, (trainFold init roster cands).bestScore)
      = selPair (none, init) (completedScores roster cands) :=
  (trainFold_go roster cands _).1

theorem trainFold_results (init : WithBot ℚ) (roster : List String) (cands : List Candidate) :
    (trainFold init roster cands).results
      = (cands.filter (fun c => decide (c.name ∈ roster))).map resultOf := by
  have h := (trainFold_go roster cands
    { results := [], bestName := none, bestScore := init }).2
  simpa [trainFold] using h

/-- C1 counterexample: a classifier run whose only candidate completes
with mean CV score 0.  The maximum over completed candidates is 0 and
its first (only) achiever is the candidate itself, but the returned
best_model is None, because the tracker starts at 0 and only a strictly
greater score updates it (classifier.py lines 89 and 128). -/
theorem claimC1_counterexample :
    ¬ bestSelectionClaim (classifierTrain ["m"] [⟨"m", Except.ok 0⟩])
        (completedScores ["m"] [⟨"m", Except.ok 0⟩]) := by
  decide

/-- C1 (amended): in every classifier or regressor train() run in which
some completed candidate scores strictly above the tracker's initial
value (`0` for the classifier, `-inf` i.e. `⊥` for the regressor, where
any completed candidate qualifies), the returned best_model is the first
candidate in processing order whose mean CV score equals the maximum
over all completed candidates — strict greater-than keeps the first-seen
candidate on ties — and unconditionally the returned best_score is ≥
every completed candidate's mean CV score. -/
theorem claimC1_amended (init : WithBot ℚ) (roster : List String) (cands : List Candidate)
    (hex : ∃ p ∈ completedScores roster cands, init < (p.2 : WithBot ℚ)) :
    bestSelectionClaim (trainFold init roster cands) (completedScores roster cands) := by
  set l := completedScores roster cands with hl
  have hpair := trainFold_pair init roster cands
  have hfst : (trainFold init roster cands).bestName = (selPair (none, init) l).1 := by
    rw [← hpair]
  have hsnd : (trainFold init roster cands).bestScore = (selPair (none, init) l).2 := by
    rw [← hpair]
  constructor
  · rw [hfst, selPair_fst_spec (none, init) hex]
    have hsup : supScores init l = maxScore l := by
      rcases hex with ⟨p, hp, hlt⟩
      have h1 : init ≤ maxScore l :=
        le_trans hlt.le (mem_le_supScores ⊥ hp)
      rw [supScores_eq_sup, sup_eq_right.mpr h1]
    rw [firstMaxName, find?_congr_mem]
    intro p hp
    have hle : (p.2 : WithBot ℚ) ≤ maxScore l := mem_le_supScores ⊥ hp
    have : (supScores init l ≤ (p.2 : WithBot ℚ)) ↔ ((p.2 : WithBot ℚ) = maxScore l) := by
      rw [hsup]
      exact ⟨fun h => le_antisymm hle h, fun h => le_of_eq h.symm⟩
    exact decide_eq_decide.mpr this
  · intro p hp
    rw [hsnd, selPair_snd]
    exact mem_le_supScores init hp

/-- C1 amended, witnessed on a concrete run: two candidates with scores
3 and 7; the hypothesis (a completed score above the initial 0) holds
and the second candidate is selected. -/
theorem claimC1_amended_witness :
    (∃ p ∈ completedScores ["a", "b"] [⟨"a", Except.ok 3⟩, ⟨"b", Except.ok 7⟩],
        ((0 : ℚ) : WithBot ℚ) < (p.2 : WithBot ℚ))
    ∧ bestSelectionClaim
        (trainFold ((0 : ℚ) : WithBot ℚ) ["a", "b"]
          [⟨"a", Except.ok 3⟩, ⟨"b", Except.ok 7⟩])
        (completedScores ["a", "b"] [⟨"a", Except.ok 3⟩, ⟨"b", Except.ok 7⟩]) :=
  ⟨by decide,
    claimC1_amended ((0 : ℚ) : WithBot ℚ) ["a", "b"]
      [⟨"a", Except.ok 3⟩, ⟨"b", Except.ok 7⟩] (by decide)⟩

/-- C2: in every train() run, the results list is exactly one entry per
roster candidate in processing order — a candidate whose training or
evaluation raises is recorded as a failed entry carrying the exception
message, and every remaining candidate is still processed.  The model's
train functions are total, so a single candidate's failure never
propagates out of train(). -/
theorem claimC2 (init : WithBot ℚ) (roster : List String) (cands : List Candidate) :
    (trainFold init roster cands).results
        = (cands.filter (fun c => decide (c.name ∈ roster))).map resultOf
    ∧ ∀ c ∈ cands, c.name ∈ roster → ∀ e, c.run = Except.error e →
        ResultEntry.failed c.name e ∈ (trainFold init roster cands).results := by
  refine ⟨trainFold_results init roster cands, ?_⟩
  intro c hc hmem e he
  rw [trainFold_results init roster cands]
  refine List.mem_map.mpr ⟨c, List.mem_filter.mpr ⟨hc, by simpa using hmem⟩, ?_⟩
  rw [resultOf, he]

/-- C2 witnessed on a concrete run: the first candidate fails with
message "boom", its failed entry is recorded, and the later candidate
still completes. -/
theorem claimC2_witness :
    ResultEntry.failed ("a") ("boom")
      ∈ (trainFold ((0 : ℚ) : WithBot ℚ) ["a", "b"]
          [⟨"a", Except.error ("boom")⟩, ⟨"b", Except.ok 1⟩]).results :=
  (claimC2 ((0 : ℚ) : WithBot ℚ) ["a", "b"]
      [⟨"a", Except.error ("boom")⟩, ⟨"b", Except.ok 1⟩]).2
    ⟨"a", Except.error ("boom")⟩ (by decide) (by decide) ("boom") rfl

/-- C3 counterexample: a classifier run whose every candidate fails ends
as exactly the outcome the claim forbids — train() returns normally (the
source raises no aggregate error; the model's train functions are total)
with zero completed entries and best_model None. -/
theorem claimC3_counterexample :
    (∀ c ∈ [(⟨"a", Except.error ("boom")⟩ : Candidate)], runFailed c = true)
    ∧ silentEmptySuccess (classifierTrain ["a"] [⟨"a", Except.error ("boom")⟩]) := by
  decide

/-- C3 (amended): a train() run in which every roster candidate fails
returns normally — no aggregate error is raised — with one failed entry
per candidate carrying its cause, best_model None and best_score equal
to the tracker's initial value; the collected causes are surfaced only
through the per-candidate failed entries of the results list. -/
theorem claimC3_amended (init : WithBot ℚ) (roster : List String) (cands : List Candidate)
    (h : ∀ c ∈ cands, c.name ∈ roster → runFailed c = true) :
    (trainFold init roster cands).results
        = (cands.filter (fun c => decide (c.name ∈ roster))).map resultOf
    ∧ (∀ r ∈ (trainFold init roster cands).results, r.isFailed = true)
    ∧ (trainFold init roster cands).bestName = none
    ∧ (trainFold init roster cands).bestScore = init := by
  have hcs : completedScores roster cands = [] := by
    rw [completedScores, List.filterMap_eq_nil_iff]
    intro c hc
    by_cases hmem : c.name ∈ roster
    · rw [if_pos hmem]
      rcases hrun : c.run with e | q
      · rfl
      · have hfail := h c hc hmem
        simp [runFailed, hrun] at hfail
    · rw [if_neg hmem]
  have hpair := trainFold_pair init roster cands
  rw [hcs] at hpair
  have hpair' : ((trainFold init roster cands).bestName,
      (trainFold init roster cands).bestScore) = (none, init) := hpair
  refine ⟨trainFold_results init roster cands, ?_, ?_, ?_⟩
  · intro r hr
    rw [trainFold_results init roster cands] at hr
    rcases List.mem_map.mp hr with ⟨c, hc, hrc⟩
    rcases List.mem_filter.mp hc with ⟨hcmem, hcr⟩
    rcases hrun : c.run with e | q
    · rw [← hrc]
      simp [resultOf, hrun, ResultEntry.isFailed]
    · have hfail := h c hcmem (by simpa using hcr)
      simp [runFailed, hrun] at hfail
  · exact congrArg Prod.fst hpair'
  · exact congrArg Prod.snd hpair'

/-- C3 amended, witnessed on a concrete all-failed run. -/
theorem claimC3_amended_witness :
    (trainFold ((0 : ℚ) : WithBot ℚ) ["a"] [⟨"a", Except.error ("boom")⟩]).bestName = none
    ∧ (trainFold ((0 : ℚ) : WithBot ℚ) ["a"] [⟨"a", Except.error ("boom")⟩]).bestScore
        = ((0 : ℚ) : WithBot ℚ) :=
  ⟨(claimC3_amended ((0 : ℚ) : WithBot ℚ) ["a"] [⟨"a", Except.error ("boom")⟩]
      (by decide)).2.2.1,
    (claimC3_amended ((0 : ℚ) : WithBot ℚ) ["a"] [⟨"a", Except.error ("boom")⟩]
      (by decide)).2.2.2⟩

/-- C10: the classifier's best-score tracker starts at 0 and moves only
on a strictly greater mean CV score, so (1) any selected best model has
some completed entry with a strictly positive score — a candidate whose
mean CV accuracy is 0 can never become the best model; (2) a run whose
completed candidates all score 0 returns best_model None with best_score
0; (3) the regressor starts at -inf, so a candidate with negative mean
R² (score -1 here) is still selected as best. -/
theorem claimC10 (roster : List String) (cands : List Candidate) :
    (∀ n, (classifierTrain roster cands).bestName = some n →
        ∃ s : ℚ, (n, s) ∈ completedScores roster cands ∧ 0 < s)
    ∧ ((∀ p ∈ completedScores roster cands, p.2 = (0 : ℚ)) →
        (classifierTrain roster cands).bestName = none
          ∧ (classifierTrain roster cands).bestScore = ((0 : ℚ) : WithBot ℚ))
    ∧ (regressorTrain ["m"] [⟨"m", Except.ok (-1)⟩]).bestName = some ("m")
    ∧ (regressorTrain ["m"] [⟨"m", Except.ok (-1)⟩]).bestScore = ((-1 : ℚ) : WithBot ℚ) := by
  have hpair := trainFold_pair ((0 : ℚ) : WithBot ℚ) roster cands
  have hfst : (classifierTrain roster cands).bestName
      = (selPair (none, ((0 : ℚ) : WithBot ℚ)) (completedScores roster cands)).1 := by
    rw [classifierTrain, ← hpair]
  have hsnd : (classifierTrain roster cands).bestScore
      = (selPair (none, ((0 : ℚ) : WithBot ℚ)) (completedScores roster cands)).2 := by
    rw [classifierTrain, ← hpair]
  refine ⟨?_, ?_, by decide, by decide⟩
  · intro n hn
    rw [hfst] at hn
    rcases selPair_fst_mem _ _ _ hn with h | ⟨s, hs, hlt⟩
    · exact absurd h (by simp)
    · have hlt' : ((0 : ℚ) : WithBot ℚ) < (s : WithBot ℚ) := hlt
      exact ⟨s, hs, by exact_mod_cast hlt'⟩
  · intro hz
    have hupd : ∀ p ∈ completedScores roster cands,
        ¬ (((none : Option String), ((0 : ℚ) : WithBot ℚ))).2 < (p.2 : WithBot ℚ) := by
      intro p hp
      rw [hz p hp]
      exact lt_irrefl _
    constructor
    · rw [hfst, selPair_no_update _ hupd]
    · rw [hsnd, selPair_snd]
      exact supScores_of_le _ (fun p hp => by rw [hz p hp])

/-- C10 witnessed on a concrete run: a classifier candidate scoring 1 is
selected and the theorem yields its strictly positive completed entry. -/
theorem claimC10_witness :
    ∃ s : ℚ, (("a"), s) ∈ completedScores ["a"] [⟨"a", Except.ok 1⟩] ∧ 0 < s :=
  (claimC10 ["a"] [⟨"a", Except.ok 1⟩]).1 ("a") (by decide)

theorem identifyColumns_go (maxCard nr : Nat) (cols : List PCol) (acc : List String × List String) :
    cols.foldl (identifyStep maxCard nr) acc
      = (acc.1 ++ (cols.filter (fun c => !(isCatCol maxCard nr c))).map PCol.name,
          acc.2 ++ (cols.filter (isCatCol maxCard nr)).map PCol.name) := by
  induction cols generalizing acc with
  | nil => simp
  | cons c t ih =>
    have hfold : (c :: t).foldl (identifyStep maxCard nr) acc
        = t.foldl (identifyStep maxCard nr) (identifyStep maxCard nr acc c) := rfl
    rw [hfold, ih]
    by_cases hnum : c.dtype.isNumeric = true
    · by_cases hcond : nuniqueP c.values ≤ maxCard ∧ (nuniqueP c.values : ℚ) < (nr : ℚ) * (5 / 100)
      · have h1 : identifyStep maxCard nr acc c = (acc.1, acc.2 ++ [c.name]) := by
          simp only [identifyStep, if_pos hnum, if_pos hcond]
        have h2 : isCatCol maxCard nr c = true := by
          simp [isCatCol, hnum, hcond.1, hcond.2]
        simp [h1, h2, List.filter_cons]
      · have h1 : identifyStep maxCard nr acc c = (acc.1 ++ [c.name], acc.2) := by
          simp only [identifyStep, if_pos hnum, if_neg hcond]
        have h2 : isCatCol maxCard nr c = false := by
          by_cases hA : nuniqueP c.values ≤ maxCard
          · have hB : ¬ (nuniqueP c.values : ℚ) < (nr : ℚ) * (5 / 100) :=
              fun hB => hcond ⟨hA, hB⟩
            simp [isCatCol, hnum, hB]
          · simp [isCatCol, hnum, hA]
        simp [h1, h2, List.filter_cons]
    · have h1 : identifyStep maxCard nr acc c = (acc.1, acc.2 ++ [c.name]) := by
        simp only [identifyStep, if_neg hnum]
      have h2 : isCatCol maxCard nr c = true := by
        have : c.dtype.isNumeric = false := by
          cases h : c.dtype.isNumeric
          · rfl
          · exact absurd h hnum
        simp [isCatCol, this]
      simp [h1, h2, List.filter_cons]

/-- C8: with the default one-hot cardinality cap of 10, `fit` classifies
a numeric-dtype column as categorical exactly when its unique count is
at most 10 and strictly below 5% of the row count; every other
numeric-dtype column lands in the numeric list and every non-numeric
column in the categorical list, both in input order. -/
theorem claimC8 (X : Table) :
    identifyColumns 10 X
      = ((X.cols.filter (fun c => !(isCatCol 10 X.nrows c))).map PCol.name,
          (X.cols.filter (isCatCol 10 X.nrows)).map PCol.name) := by
  have h := identifyColumns_go 10 X.nrows X.cols ([], [])
  simpa [identifyColumns] using h

/-- C4: for every ordinal encoder state produced by fit (a nonempty
vocabulary stored for some column), a value outside the vocabulary is
encoded as code 0, i.e. exactly as the encoder's first learned class is
encoded; and a one-hot encoded value outside the fitted categories
yields the all-zero indicator vector.  Both transforms are total
functions of the model: no unseen value raises. -/
theorem claimC4 (Xt : List (String × List String)) (col : String) (classes : List String)
    (hlk : lookupEnc (ordinalFit Xt) col = some classes) (hne : classes ≠ [])
    (v : String) (hv : v ∉ classes)
    (cats : List PCell) (w : PCell) (hw : w ∉ cats) :
    ordinalEncodeCell classes v = 0
    ∧ ordinalEncodeCell classes v = ordinalEncodeCell classes (classes.headD "")
    ∧ oneHotCell cats w = List.replicate cats.length 0 := by
  rcases classes with _ | ⟨h0, t⟩
  · exact absurd rfl hne
  · have hu : ordinalEncodeCell (h0 :: t) v = 0 := by
      rw [ordinalEncodeCell, if_neg hv, List.headD_cons, List.indexOf_cons_self]
    have hh : ordinalEncodeCell (h0 :: t) ((h0 :: t).headD "") = 0 := by
      have hmem : (h0 :: t).headD "" ∈ h0 :: t := by
        rw [List.headD_cons]
        exact List.mem_cons_self h0 t
      rw [ordinalEncodeCell, if_pos hmem, List.headD_cons, List.indexOf_cons_self]
    refine ⟨hu, by rw [hu, hh], ?_⟩
    refine List.eq_replicate_iff.mpr ⟨by simp [oneHotCell], ?_⟩
    intro b hb
    rcases List.mem_map.mp hb with ⟨c, hc, hbc⟩
    rw [← hbc, if_neg (fun h : c = w => hw (h ▸ hc))]

/-- C4 witnessed concretely: fitting on values A, A yields the
vocabulary [A] for column c, and the unseen value D is encoded as 0,
the code of the first learned class A. -/
theorem claimC4_witness :
    lookupEnc (ordinalFit [(("c"), ["A", "A"])]) ("c") = some ["A"]
    ∧ ordinalEncodeCell ["A"] ("D") = 0 :=
  ⟨by decide,
    (claimC4 [(("c"), ["A", "A"])] ("c") ["A"] (by decide) (by decide)
      ("D") (by decide) [PCell.str ("x")] (PCell.str ("y")) (by decide)).1⟩

theorem filter_name_length_le (cols : List PCol) (hnd : (cols.map PCol.name).Nodup) (n : String) :
    (cols.filter (fun c => c.name == n)).length ≤ 1 := by
  induction cols with
  | nil => simp
  | cons c t ih =>
    rw [List.map_cons, List.nodup_cons] at hnd
    rcases hnd with ⟨hn, hnd'⟩
    by_cases hc : (c.name == n) = true
    · have ht : t.filter (fun c => c.name == n) = [] := by
        rw [List.filter_eq_nil_iff]
        intro d hd hdn
        apply hn
        have h1 : d.name = n := by simpa using hdn
        have h2 : c.name = n := by simpa using hc
        rw [h2, ← h1]
        exact List.mem_map_of_mem PCol.name hd
      simp [List.filter_cons, hc, ht]
    · simp only [List.filter_cons, hc, if_false]
      exact ih hnd'

theorem perm_eq_of_length_le_one {l m : List PCol} (h : l.Perm m) (hl : l.length ≤ 1) :
    l = m := by
  rcases l with _ | ⟨a, _ | ⟨b, t⟩⟩
  · exact (h.symm.eq_nil).symm
  · have hm : m.length = 1 := by rw [← h.length_eq]; rfl
    rcases m with _ | ⟨b, _ | ⟨c, u⟩⟩
    · simp at hm
    · have ha : a ∈ [b] := h.mem_iff.mp (by simp)
      simp only [List.mem_singleton] at ha
      rw [ha]
    · rw [List.length_cons, List.length_cons] at hm
      omega
  · rw [List.length_cons, List.length_cons] at hl
    omega

theorem lookupCol_perm {X Y : Table} (hperm : Y.cols.Perm X.cols)
    (hnd : (X.cols.map PCol.name).Nodup) (n : String) :
    lookupCol Y n = lookupCol X n := by
  have hfil : (Y.cols.filter (fun c => c.name == n)).Perm
      (X.cols.filter (fun c => c.name == n)) := hperm.filter _
  have hlen : (Y.cols.filter (fun c => c.name == n)).length ≤ 1 := by
    rw [hfil.length_eq]
    exact filter_name_length_le X.cols hnd n
  have heq := perm_eq_of_length_le_one hfil hlen
  rw [lookupCol, lookupCol, heq]

theorem applySpec_perm {X Y : Table} (hperm : Y.cols.Perm X.cols)
    (hnd : (X.cols.map PCol.name).Nodup) (scale : Bool) (sp : TransSpec) :
    applySpec scale Y sp = applySpec scale X sp := by
  have hl : ∀ n, lookupCol Y n = lookupCol X n := lookupCol_perm hperm hnd
  cases sp with
  | numeric fits => simp only [applySpec, hl]
  | categorical fits => simp only [applySpec, hl]
  | remainder names => simp only [applySpec, hl]

/-- C7: for every fitted preprocessor state, transform applied to any
column permutation of an input table (column labels being unique, as in
pandas) yields the same matrix as transform of the table itself —
column selection is by name; and the matrix a preprocessor fitted on X
produces on any input splits as the fixed block order
[numeric block, categorical block, passthrough]. -/
theorem claimC7 (cfg : PreConfig) (st : PreState) (X Y Z : Table)
    (hnd : (X.cols.map PCol.name).Nodup) (hperm : Y.cols.Perm X.cols) :
    transformPre st Y = transformPre st X
    ∧ transformPre (fitPre cfg X) Z
        = numericBlockOut cfg X Z ++ categoricalBlockOut cfg X Z ++ passthroughOut cfg X Z := by
  constructor
  · have hfun : applySpec st.scaleNumeric Y = applySpec st.scaleNumeric X :=
      funext (applySpec_perm hperm hnd st.scaleNumeric)
    rw [transformPre, transformPre, hfun]
  · by_cases h1 : (identifyColumns cfg.maxCard X).1 = [] <;>
      by_cases h2 : (identifyColumns cfg.maxCard X).2 = [] <;>
        simp [transformPre, fitPre, h1, h2, applySpec, numericBlockOut,
          categoricalBlockOut, passthroughOut]

/-- C7 witnessed concretely: a two-column table (numeric x, categorical
c) and its column-swapped permutation produce identical transform
output under the default configuration. -/
theorem claimC7_witness :
    ((exTableX.cols.map PCol.name).Nodup ∧ exTableY.cols.Perm exTableX.cols)
    ∧ transformPre (fitPre ⟨true, EncodeKind.onehot, 10⟩ exTableX) exTableY
        = transformPre (fitPre ⟨true, EncodeKind.onehot, 10⟩ exTableX) exTableX :=
  ⟨⟨by decide, by decide⟩,
    (claimC7 ⟨true, EncodeKind.onehot, 10⟩ (fitPre ⟨true, EncodeKind.onehot, 10⟩ exTableX)
      exTableX exTableY exTableX (by decide) (by decide)).1⟩

/-- C5 counterexample: on a frame with a parseable date-named column,
the timeseries check fires first, and detect() returns timeseries even
though the float target has 2 unique values over 50 rows (count ≤ 20,
ratio 0.04 < 0.05) — not the claimed binary_classification at 0.95. -/
theorem claimC5_counterexample : ¬ C5Statement dfC5 ("y") := by
  decide

/-- C5 (amended): provided the timeseries check fails (no date-like
column parses as datetime), every target with at most 20 unique values
and a unique-to-row ratio strictly below 0.05 yields a classification
problem type regardless of dtype — binary_classification at confidence
0.95 on exactly 2 uniques, else multiclass_classification at 0.9; the
numeric-dtype regression rule is reached only when this check fails. -/
theorem claimC5_amended (df : DetFrame) (tname : String)
    (hts : isTimeseries df = false)
    (hu : nuniqueP (lookupDet df tname).values ≤ 20)
    (hr : ((nuniqueP (lookupDet df tname).values : ℚ)
        / ((lookupDet df tname).values.length : ℚ)) < 0.05) :
    detect df (some tname)
      = (if nuniqueP (lookupDet df tname).values = 2
          then (("binary_classification"), (0.95 : ℚ))
          else (("multiclass_classification"), 0.9)) := by
  show determineProblemType df tname = _
  rw [determineProblemType, if_neg (by rw [hts]; exact Bool.false_ne_true)]
  simp only
  rw [if_pos ⟨hu, hr⟩]

/-- C5 amended, witnessed on the spec's own boundary scenario: a float
target with exactly 3 unique values across 100 rows (ratio 0.03) and no
date-like column is detected as multiclass_classification, not
regression. -/
theorem claimC5_amended_witness :
    isTimeseries dfC5w = false
    ∧ detect dfC5w (some ("y"))
        = (if nuniqueP (lookupDet dfC5w ("y")).values = 2
            then (("binary_classification"), (0.95 : ℚ))
            else (("multiclass_classification"), 0.9)) :=
  ⟨by decide, claimC5_amended dfC5w ("y") (by decide) (by decide) (by decide)⟩

/-- C6: a DBSCAN run whose labels contain fewer than two non-noise
clusters reports the sentinel silhouette -1 (the model's clusterer is
total — nothing raises on that branch), and when any k-means candidate
completed with a computed (hence ≥ -1) silhouette, the sentinel-scored
DBSCAN is never selected as best. -/
theorem claimC6 (kres : List (Nat × Except String ℚ)) (labels : List Int) (computedSil : ℚ)
    (hlt : nClustersOf labels < 2)
    (hex : ∃ p ∈ kmeansCompleted kres, (-1 : ℚ) ≤ p.2) :
    dbscanSil labels computedSil = -1
    ∧ (clustererTrain kres true labels computedSil).1 ≠ some ("dbscan") := by
  have hsent : dbscanSil labels computedSil = -1 := by
    rw [dbscanSil, if_neg (by omega)]
  refine ⟨hsent, ?_⟩
  rcases hex with ⟨q, hq, hq1⟩
  have hsup : (((-1 : ℚ)) : WithBot ℚ) ≤ (selPair (none, ⊥) (kmeansCompleted kres)).2 := by
    rw [selPair_snd]
    exact le_trans (by exact_mod_cast hq1) (mem_le_supScores ⊥ hq)
  have hcond : ¬ (selPair (none, ⊥) (kmeansCompleted kres)).2
      < ((dbscanSil labels computedSil : ℚ) : WithBot ℚ) := by
    rw [hsent]
    exact not_lt.mpr hsup
  have htrain : clustererTrain kres true labels computedSil
      = selPair (none, ⊥) (kmeansCompleted kres) := by
    show (if (selPair (none, ⊥) (kmeansCompleted kres)).2
        < ((dbscanSil labels computedSil : ℚ) : WithBot ℚ)
      then (some ("dbscan"), ((dbscanSil labels computedSil : ℚ) : WithBot ℚ))
      else selPair (none, ⊥) (kmeansCompleted kres)) = _
    rw [if_neg hcond]
  rw [htrain]
  intro hbad
  have hform : ∀ r ∈ kmeansCompleted kres, ∃ k : Nat, r.1 = ("kmeans_") ++ toString k := by
    intro r hr
    rcases List.mem_filterMap.mp hr with ⟨p, hp, hpr⟩
    rcases hrun : p.2 with e | s
    · rw [hrun] at hpr
      cases hpr
    · rw [hrun] at hpr
      simp only [Option.some_inj] at hpr
      exact ⟨p.1, by rw [← hpr]⟩
  have hne : ∀ k : Nat, (("kmeans_") ++ toString k) ≠ ("dbscan") := by
    intro k h
    have hd : ("kmeans_").data ++ (toString k).data = ("dbscan").data := congrArg String.data h
    have h1 : ("kmeans_").data = ['k', 'm', 'e', 'a', 'n', 's', '_'] := by decide
    have h2 : ("dbscan").data = ['d', 'b', 's', 'c', 'a', 'n'] := by decide
    rw [h1, h2] at hd
    simp at hd
  rcases selPair_fst_mem _ _ _ hbad with h | ⟨s, hs, _⟩
  · cases h
  · rcases hform (("dbscan"), s) hs with ⟨k, hk⟩
    exact hne k hk.symm

/-- C6 witnessed concretely: one completed k-means candidate with
silhouette 0, DBSCAN labels consisting of noise only — the sentinel is
reported and k-means stays best. -/
theorem claimC6_witness :
    dbscanSil [-1] 0 = -1
    ∧ (clustererTrain [(2, Except.ok 0)] true [-1] 0).1 ≠ some ("dbscan") :=
  claimC6 [(2, Except.ok 0)] [-1] 0 (by decide) (by decide)

/-- C9: the artifact generation of package() is a pure function of the
four inputs — two invocations on equal model-independent inputs yield
structurally identical feature_schema.json and ui_schema.json whatever
the clock says, and the remaining documents differ at most in their
timestamp fields (packaged_at in metadata.json, training_date in
model_info.json). -/
theorem claimC9 (fs₁ fs₂ : FeatureSchema) (md₁ md₂ : MetadataIn) (fmt₁ fmt₂ t₁ t₂ : String)
    (hfs : fs₁ = fs₂) (hmd : md₁ = md₂) (hfmt : fmt₁ = fmt₂) :
    (packageArtifacts fs₁ md₁ fmt₁ t₁).featureSchemaJson
        = (packageArtifacts fs₂ md₂ fmt₂ t₂).featureSchemaJson
    ∧ (packageArtifacts fs₁ md₁ fmt₁ t₁).uiSchema
        = (packageArtifacts fs₂ md₂ fmt₂ t₂).uiSchema
    ∧ { (packageArtifacts fs₁ md₁ fmt₁ t₁).metadataOut with packagedAt := ("") }
        = { (packageArtifacts fs₂ md₂ fmt₂ t₂).metadataOut with packagedAt := ("") }
    ∧ { (packageArtifacts fs₁ md₁ fmt₁ t₁).modelInfo with trainingDate := ("") }
        = { (packageArtifacts fs₂ md₂ fmt₂ t₂).modelInfo with trainingDate := ("") }
    ∧ (packageArtifacts fs₁ md₁ fmt₁ t₁).requirements
        = (packageArtifacts fs₂ md₂ fmt₂ t₂).requirements := by
  subst hfs hmd hfmt
  exact ⟨rfl, rfl, rfl, rfl, rfl⟩

/-- C9 witnessed on concrete inputs at two different timestamps. -/
theorem claimC9_witness :
    (packageArtifacts ⟨"y", []⟩ ⟨none, none, none, none, none, none⟩ ("pkl") ("t1")).uiSchema
      = (packageArtifacts ⟨"y", []⟩ ⟨none, none, none, none, none, none⟩ ("pkl") ("t2")).uiSchema :=
  (claimC9 ⟨"y", []⟩ ⟨"y", []⟩ ⟨none, none, none, none, none, none⟩
    ⟨none, none, none, none, none, none⟩ ("pkl") ("pkl") ("t1") ("t2") rfl rfl rfl).2.1
